import Mathlib

/-!
Shallow embedding of the whisper transcription binding
(`src/packages/whisper-wrapper/addon/addon.cpp`).

Modelling conventions:
* JavaScript option objects are association lists of property names to
  loosely typed values (`JVal`).  Property lookup mirrors `options.Has`
  followed by `options.Get`.
* Machine floating point values (token probabilities, thresholds) are
  modelled as rationals; 32-bit conversions of JavaScript numbers follow
  the ECMAScript ToInt32 rule with explicit reduction modulo 2 ^ 32.
* The native whisper engine is an external collaborator: its default
  parameter record, the audio file reader, the context loader and the
  post-decode query surface are inputs of the embedded functions.
* Exceptions thrown across the N-API boundary are modelled with
  `Except String`.  The source raises a type error at the first option
  field whose value has the wrong primitive type; the embedding checks
  all declared fields up front (`optionsTyped`) and otherwise performs
  the same sequence of field updates, which is observationally the same
  (an exception discards the partially built configuration).
-/

namespace WhisperAddon

/-- A loosely typed JavaScript value as it crosses the N-API boundary:
strings, numbers, booleans, Float32Array sample buffers, and anything
else (objects, null, undefined, ...). -/
inductive JVal where
  | str (s : String)
  | num (q : ℚ)
  | bool (b : Bool)
  | floatArr (a : List ℚ)
  | other
deriving DecidableEq, Repr

/-- A JavaScript options object, as an association list of properties. -/
abbrev Options := List (String × JVal)

/-- Property lookup, `options.Has(k)` / `options.Get(k)` combined. -/
def optGet (o : Options) (k : String) : Option JVal :=
  List.lookup k o

/-- Truncation of a rational toward zero. -/
def ratTrunc (q : ℚ) : Int :=
  if 0 ≤ q then Rat.floor q else -(Rat.floor (-q))

/-- Reduction of an integer into the signed 32-bit range: the value a C
narrowing conversion to `int` stores (reduce modulo 2 ^ 32, reinterpret
into the signed range, as on twos-complement targets). -/
def int32Wrap (n : Int) : Int :=
  let m := n % (2 ^ 32 : Int)
  if m < 2 ^ 31 then m else m - 2 ^ 32

/-- Conversion of a JavaScript number to a signed 32-bit integer, as
performed by `Napi::Number::Int32Value` (ECMAScript ToInt32): truncate
toward zero, reduce modulo 2 ^ 32, reinterpret into the signed range. -/
def int32Of (q : ℚ) : Int :=
  int32Wrap (ratTrunc q)

/-- `whisper_sampling_strategy` value `WHISPER_SAMPLING_GREEDY`. -/
def WHISPER_SAMPLING_GREEDY : Int := 0

/-- `whisper_sampling_strategy` value `WHISPER_SAMPLING_BEAM_SEARCH`. -/
def WHISPER_SAMPLING_BEAM_SEARCH : Int := 1

/-- The engine parameter record `whisper_full_params`, restricted to the
fields the binding reads or writes (source lines 41-197, 422-423).
The sampling strategy is kept as the underlying C enumeration integer. -/
structure WhisperFullParams where
  strategy : Int
  n_threads : Int
  n_max_text_ctx : Int
  offset_ms : Int
  duration_ms : Int
  translate : Bool
  no_context : Bool
  no_timestamps : Bool
  single_segment : Bool
  print_special : Bool
  print_progress : Bool
  print_realtime : Bool
  print_timestamps : Bool
  token_timestamps : Bool
  thold_pt : ℚ
  thold_ptsum : ℚ
  max_len : Int
  split_on_word : Bool
  max_tokens : Int
  debug_mode : Bool
  audio_ctx : Int
  tdrz_enable : Bool
  suppress_blank : Bool
  suppress_nst : Bool
  temperature : ℚ
  max_initial_ts : ℚ
  length_penalty : ℚ
  temperature_inc : ℚ
  entropy_thold : ℚ
  logprob_thold : ℚ
  no_speech_thold : ℚ
  greedy_best_of : Int
  beam_search_beam_size : Int
  detect_language : Bool
  language : String
  initial_prompt : Option String

/-- `FullParamConfig` (source lines 41-47): the engine parameter record
plus the two owned strings and the two result-shaping flags. -/
structure FullParamConfig where
  params : WhisperFullParams
  initial_prompt : String
  language : String
  detailed : Bool
  token_timestamps : Bool

/-- Field update for an optional numeric option: if the property is
present with a number value, apply the update to the parameter record;
if absent, keep the record.  A present value of any other type makes
the source throw a type error; that case is excluded up front by
`optionsTyped` in `parse_full_params`. -/
def updNumP (o : Options) (k : String)
    (f : WhisperFullParams → ℚ → WhisperFullParams)
    (c : FullParamConfig) : FullParamConfig :=
  match optGet o k with
  | some (JVal.num q) => { c with params := f c.params q }
  | _ => c

/-- Field update for an optional boolean option, analogous to `updNumP`. -/
def updBoolP (o : Options) (k : String)
    (f : WhisperFullParams → Bool → WhisperFullParams)
    (c : FullParamConfig) : FullParamConfig :=
  match optGet o k with
  | some (JVal.bool b) => { c with params := f c.params b }
  | _ => c

/-- Source lines 85-89: `print_progress` is taken from the options when
present and otherwise forced to `false`, overriding the engine default. -/
def printProgressStep (o : Options) (c : FullParamConfig) : FullParamConfig :=
  match optGet o "print_progress" with
  | some (JVal.bool b) => { c with params := { c.params with print_progress := b } }
  | none => { c with params := { c.params with print_progress := false } }
  | some _ => c

/-- Source line 100: the result-shaping token-timestamp flag is copied
from the engine parameter field, so one boolean drives both. -/
def tokenTsCopyStep (c : FullParamConfig) : FullParamConfig :=
  { c with token_timestamps := c.params.token_timestamps }

/-- Source lines 129-131: `initial_prompt`, taken only when present with
a string value. -/
def initialPromptStep (o : Options) (c : FullParamConfig) : FullParamConfig :=
  match optGet o "initial_prompt" with
  | some (JVal.str s) => { c with initial_prompt := s }
  | _ => c

/-- Source lines 133-137: `language`, defaulting to `"auto"` when the
property is absent or not a string. -/
def languageStep (o : Options) (c : FullParamConfig) : FullParamConfig :=
  match optGet o "language" with
  | some (JVal.str s) => { c with language := s }
  | _ => { c with language := "auto" }

/-- Source lines 172-177: `beam_size` sets the beam-search width and, when
the just-written width exceeds 1, forces the beam-search strategy. -/
def beamUpd (p : WhisperFullParams) (q : ℚ) : WhisperFullParams :=
  let p2 := { p with beam_search_beam_size := int32Of q }
  if 1 < p2.beam_search_beam_size then
    { p2 with strategy := WHISPER_SAMPLING_BEAM_SEARCH }
  else p2

/-- Source lines 179-181: `prompt` populates the initial prompt only when
it is a string and the initial prompt is still empty. -/
def promptStep (o : Options) (c : FullParamConfig) : FullParamConfig :=
  match optGet o "prompt" with
  | some (JVal.str s) => if c.initial_prompt = "" then { c with initial_prompt := s } else c
  | _ => c

/-- Source lines 183-187: `format` is lowercased and compared against
`"detail"` to decide whether detailed output is produced. -/
def formatStep (o : Options) (c : FullParamConfig) : FullParamConfig :=
  match optGet o "format" with
  | some (JVal.str s) => { c with detailed := s.toLower = "detail" }
  | _ => c

/-- Source line 189-191: `detect_language`. -/
def detectLanguageStep (o : Options) (c : FullParamConfig) : FullParamConfig :=
  updBoolP o "detect_language" (fun p b => { p with detect_language := b }) c

/-- Normalization of an empty language string to `"auto"`; the code at
source lines 193-195 and again at lines 418-420. -/
def normLang (s : String) : String :=
  if s = "" then "auto" else s

/-- Source lines 193-195: the parse-time re-application of the
empty-language normalization. -/
def langFixStep (c : FullParamConfig) : FullParamConfig :=
  { c with language := normLang c.language }

/-- The field-by-field body of `parse_full_params` (source lines 49-198),
with every update in source order.  `d` stands for the record returned by
the external `whisper_full_default_params(WHISPER_SAMPLING_GREEDY)`. -/
def parseFields (d : WhisperFullParams) (o : Options) : FullParamConfig :=
  let cfg : FullParamConfig :=
    { params := d, initial_prompt := "", language := "", detailed := false,
      token_timestamps := false }
  let cfg := updNumP o "strategy" (fun p q => { p with strategy := int32Of q }) cfg
  let cfg := updNumP o "n_threads" (fun p q => { p with n_threads := int32Of q }) cfg
  let cfg := updNumP o "n_max_text_ctx" (fun p q => { p with n_max_text_ctx := int32Of q }) cfg
  let cfg := updNumP o "offset_ms" (fun p q => { p with offset_ms := int32Of q }) cfg
  let cfg := updNumP o "duration_ms" (fun p q => { p with duration_ms := int32Of q }) cfg
  let cfg := updBoolP o "translate" (fun p b => { p with translate := b }) cfg
  let cfg := updBoolP o "no_context" (fun p b => { p with no_context := b }) cfg
  let cfg := updBoolP o "no_timestamps" (fun p b => { p with no_timestamps := b }) cfg
  let cfg := updBoolP o "single_segment" (fun p b => { p with single_segment := b }) cfg
  let cfg := updBoolP o "print_special" (fun p b => { p with print_special := b }) cfg
  let cfg := printProgressStep o cfg
  let cfg := updBoolP o "print_realtime" (fun p b => { p with print_realtime := b }) cfg
  let cfg := updBoolP o "print_timestamps" (fun p b => { p with print_timestamps := b }) cfg
  let cfg := updBoolP o "token_timestamps" (fun p b => { p with token_timestamps := b }) cfg
  let cfg := tokenTsCopyStep cfg
  let cfg := updNumP o "thold_pt" (fun p q => { p with thold_pt := q }) cfg
  let cfg := updNumP o "thold_ptsum" (fun p q => { p with thold_ptsum := q }) cfg
  let cfg := updNumP o "max_len" (fun p q => { p with max_len := int32Of q }) cfg
  let cfg := updBoolP o "split_on_word" (fun p b => { p with split_on_word := b }) cfg
  let cfg := updNumP o "max_tokens" (fun p q => { p with max_tokens := int32Of q }) cfg
  let cfg := updBoolP o "debug_mode" (fun p b => { p with debug_mode := b }) cfg
  let cfg := updNumP o "audio_ctx" (fun p q => { p with audio_ctx := int32Of q }) cfg
  let cfg := updBoolP o "tdrz_enable" (fun p b => { p with tdrz_enable := b }) cfg
  let cfg := initialPromptStep o cfg
  let cfg := languageStep o cfg
  let cfg := updBoolP o "suppress_blank" (fun p b => { p with suppress_blank := b }) cfg
  let cfg := updBoolP o "suppress_non_speech_tokens" (fun p b => { p with suppress_nst := b }) cfg
  let cfg := updNumP o "temperature" (fun p q => { p with temperature := q }) cfg
  let cfg := updNumP o "max_initial_ts" (fun p q => { p with max_initial_ts := (int32Of q : ℚ) }) cfg
  let cfg := updNumP o "length_penalty" (fun p q => { p with length_penalty := q }) cfg
  let cfg := updNumP o "temperature_inc" (fun p q => { p with temperature_inc := q }) cfg
  let cfg := updNumP o "entropy_thold" (fun p q => { p with entropy_thold := q }) cfg
  let cfg := updNumP o "logprob_thold" (fun p q => { p with logprob_thold := q }) cfg
  let cfg := updNumP o "no_speech_thold" (fun p q => { p with no_speech_thold := q }) cfg
  let cfg := updNumP o "best_of" (fun p q => { p with greedy_best_of := int32Of q }) cfg
  let cfg := updNumP o "beam_size" beamUpd cfg
  let cfg := promptStep o cfg
  let cfg := formatStep o cfg
  let cfg := detectLanguageStep o cfg
  langFixStep cfg

/-- The property `k`, when present, holds a number. -/
def numOk (o : Options) (k : String) : Bool :=
  match optGet o k with
  | some (JVal.num _) => true
  | some _ => false
  | none => true

/-- The property `k`, when present, holds a boolean. -/
def boolOk (o : Options) (k : String) : Bool :=
  match optGet o k with
  | some (JVal.bool _) => true
  | some _ => false
  | none => true

/-- Every declared numeric or boolean option that is present has the
right primitive type; otherwise the source throws while parsing.  The
string-valued options (`initial_prompt`, `language`, `prompt`, `format`)
are guarded by explicit `IsString` checks in the source and never throw. -/
def optionsTyped (o : Options) : Bool :=
  numOk o "strategy" && numOk o "n_threads" && numOk o "n_max_text_ctx" &&
  numOk o "offset_ms" && numOk o "duration_ms" && numOk o "thold_pt" &&
  numOk o "thold_ptsum" && numOk o "max_len" && numOk o "max_tokens" &&
  numOk o "audio_ctx" && numOk o "temperature" && numOk o "max_initial_ts" &&
  numOk o "length_penalty" && numOk o "temperature_inc" && numOk o "entropy_thold" &&
  numOk o "logprob_thold" && numOk o "no_speech_thold" && numOk o "best_of" &&
  numOk o "beam_size" &&
  boolOk o "translate" && boolOk o "no_context" && boolOk o "no_timestamps" &&
  boolOk o "single_segment" && boolOk o "print_special" && boolOk o "print_progress" &&
  boolOk o "print_realtime" && boolOk o "print_timestamps" && boolOk o "token_timestamps" &&
  boolOk o "split_on_word" && boolOk o "debug_mode" && boolOk o "tdrz_enable" &&
  boolOk o "suppress_blank" && boolOk o "suppress_non_speech_tokens" &&
  boolOk o "detect_language"

/-- `parse_full_params` (source lines 49-198): translate a loosely typed
options object into a fully populated configuration, starting from the
engine default record `d`. -/
def parse_full_params (d : WhisperFullParams) (o : Options) : Except String FullParamConfig :=
  if optionsTyped o then Except.ok (parseFields d o)
  else Except.error "invalid option value type"

/-- `WhisperHandle` (source lines 18-22): the wrapper that owns one
engine context.  The context pointer is modelled as `Option Nat`
(`none` standing for `nullptr`); the mutex serializes the operations
below, whose effect on the handle state is modelled sequentially. -/
structure WhisperHandle where
  ctx : Option Nat
  freed : Bool
deriving DecidableEq, Repr

/-- `free_model` (source lines 283-295): under the handle lock, release
the context exactly when the handle is not yet freed and the context is
non-null.  The second component records whether `whisper_free` was
invoked, making the no-op case observable. -/
def free_model (h : WhisperHandle) : WhisperHandle × Bool :=
  if !h.freed && h.ctx.isSome then ({ ctx := none, freed := true }, true)
  else (h, false)

/-- The finalizer installed by `wrap_handle` (source lines 200-214): the
automatic reclamation path runs the same guarded release under the same
lock before deleting the wrapper. -/
def finalizeHandle (h : WhisperHandle) : WhisperHandle × Bool :=
  if !h.freed && h.ctx.isSome then ({ ctx := none, freed := true }, true)
  else (h, false)

/-- `whisper_context_params`, restricted to the two fields the binding
writes (source lines 268-270). -/
structure WhisperContextParams where
  use_gpu : Bool
  flash_attn : Bool
deriving DecidableEq, Repr

/-- Source lines 256-261: GPU use comes from `gpu` when present, else
from `use_gpu`, else defaults to `true`.  A present non-boolean value
makes `Napi::Boolean::Value` throw. -/
def initUseGpu (o : Options) : Except String Bool :=
  match optGet o "gpu" with
  | some (JVal.bool b) => Except.ok b
  | some _ => Except.error "invalid option value type"
  | none =>
    match optGet o "use_gpu" with
    | some (JVal.bool b) => Except.ok b
    | some _ => Except.error "invalid option value type"
    | none => Except.ok true

/-- Source lines 263-266: `flash_attn`, defaulting to `false`. -/
def initFlashAttn (o : Options) : Except String Bool :=
  match optGet o "flash_attn" with
  | some (JVal.bool b) => Except.ok b
  | some _ => Except.error "invalid option value type"
  | none => Except.ok false

/-- The observable outcome of a successful `init`: the context parameter
record handed to the engine loader, and the freshly created handle. -/
structure InitResult where
  cparams : WhisperContextParams
  handle : WhisperHandle
deriving DecidableEq, Repr

/-- `init_model` (source lines 244-281).  `dctx` stands for the external
`whisper_context_default_params()`; `engineInit` for the external
`whisper_init_from_file_with_params` (`none` = load failure). -/
def init_model (_dctx : WhisperContextParams)
    (engineInit : String → WhisperContextParams → Option Nat)
    (o : Options) : Except String InitResult :=
  match optGet o "model" with
  | some (JVal.str model) =>
    match initUseGpu o with
    | Except.error e => Except.error e
    | Except.ok use_gpu =>
      match initFlashAttn o with
      | Except.error e => Except.error e
      | Except.ok flash_attn =>
        let cparams : WhisperContextParams := { use_gpu := use_gpu, flash_attn := flash_attn }
        match engineInit model cparams with
        | none => Except.error "Failed to initialize whisper context"
        | some c =>
          Except.ok { cparams := cparams, handle := { ctx := some c, freed := false } }
  | _ => Except.error "Missing model path"

/-- `extract_audio` (source lines 223-231): the in-memory sample buffer,
or the empty buffer when `audio` is absent or not a Float32Array. -/
def extract_audio (o : Options) : List ℚ :=
  match optGet o "audio" with
  | some (JVal.floatArr a) => a
  | _ => []

/-- `extract_files` (source lines 233-242): at most one input file name,
taken from `fname_inp` when it is a string. -/
def extract_files (o : Options) : List String :=
  match optGet o "fname_inp" with
  | some (JVal.str s) => [s]
  | _ => []

/-- Audio resolution inside `full_transcribe` (source lines 403-414): a
non-empty in-memory buffer is used as is; otherwise the first input file
is decoded through the external `read_audio_data` (modelled by `ra`,
`none` = read failure); with neither source the call fails. -/
def resolveAudio (o : Options) (ra : String → Option (List ℚ)) : Except String (List ℚ) :=
  let pcmf32 := extract_audio o
  if pcmf32.isEmpty then
    match extract_files o with
    | [] => Except.error "No audio provided (audio buffer or fname_inp required)"
    | f :: _ =>
      match ra f with
      | none => Except.error "Failed to read input audio file"
      | some samples => Except.ok samples
  else Except.ok pcmf32

/-- Source lines 425-428: the processor count, clamped to at least 1. -/
def nProcessorsOf (o : Options) : Except String Int :=
  match optGet o "n_processors" with
  | none => Except.ok 1
  | some (JVal.num q) => Except.ok (max 1 (int32Of q))
  | some _ => Except.error "invalid option value type"

/-- Everything `full_transcribe` hands to `whisper_full_parallel`
(source lines 430-437): the samples, the finalized configuration (whose
`params.language` and `params.initial_prompt` refer to the owned
strings), and the processor count. -/
structure PreparedCall where
  samples : List ℚ
  cfg : FullParamConfig
  n_processors : Int

/-- The pre-engine part of `full_transcribe` (source lines 390-437): the
freed-handle check, audio resolution, parameter parsing, the second
empty-language normalization, the wiring of the two owned strings into
the engine parameter record, and the processor count.  A successful
result is exactly an invocation of the engine decode entry point. -/
def full_call (d : WhisperFullParams) (h : WhisperHandle) (o : Options)
    (ra : String → Option (List ℚ)) : Except String PreparedCall :=
  if h.freed || h.ctx.isNone then Except.error "Model has been freed"
  else
    match resolveAudio o ra with
    | Except.error e => Except.error e
    | Except.ok samples =>
      match parse_full_params d o with
      | Except.error e => Except.error e
      | Except.ok cfg0 =>
        let cfg1 := langFixStep cfg0
        let cfg2 := { cfg1 with params :=
          { cfg1.params with
            language := cfg1.language,
            initial_prompt :=
              if cfg1.initial_prompt = "" then none else some cfg1.initial_prompt } }
        match nProcessorsOf o with
        | Except.error e => Except.error e
        | Except.ok np => Except.ok { samples := samples, cfg := cfg2, n_processors := np }

/-- One entry of the engine per-token query surface
(`whisper_full_get_token_data` and `whisper_full_get_token_text`):
text, id, probability, and centisecond start/end ticks. -/
structure TokenRaw where
  text : String
  id : Int
  p : ℚ
  t0 : Int
  t1 : Int
deriving DecidableEq, Repr

/-- One entry of the engine per-segment query surface: centisecond
start/end ticks, text, and the segment tokens. -/
structure SegmentRaw where
  t0 : Int
  t1 : Int
  text : String
  tokens : List TokenRaw
deriving DecidableEq, Repr

/-- The engine state queryable after a successful decode: the segments,
the end-of-text token id (`whisper_token_eot`), and the detected
language string (`whisper_lang_str(whisper_full_lang_id(ctx))`). -/
structure EngineState where
  segments : List SegmentRaw
  eot : Int
  langStr : String
deriving DecidableEq, Repr

/-- `TokenData` (source lines 24-30): times default to -1 and are only
populated when token timestamps were requested. -/
structure TokenData where
  text : String
  id : Int
  p : ℚ
  from_ms : Int
  to_ms : Int
deriving DecidableEq, Repr

/-- `SegmentData` (source lines 32-39). -/
structure SegmentData where
  from_ms : Int
  to_ms : Int
  text : String
  confidence : ℚ
  language : String
  tokens : List TokenData
deriving DecidableEq, Repr

/-- The running accumulator of the per-segment confidence loop (source
lines 317-320): probability sum, running minimum (seeded with 1.0),
running maximum (seeded with 0.0), and the qualifying token count. -/
structure ConfAcc where
  sum : ℚ
  min_p : ℚ
  max_p : ℚ
  valid : Nat
deriving DecidableEq, Repr

/-- One iteration of the confidence loop (source lines 336-343): tokens
whose id exceeds the end-of-text id are skipped; the rest contribute to
the sum, the running minimum/maximum, and the count. -/
def confStep (eot : Int) (a : ConfAcc) (t : TokenRaw) : ConfAcc :=
  if eot < t.id then a
  else { sum := a.sum + t.p, min_p := min a.min_p t.p, max_p := max a.max_p t.p,
         valid := a.valid + 1 }

/-- The confidence accumulator over a whole token list. -/
def confAcc (eot : Int) (toks : List TokenRaw) : ConfAcc :=
  toks.foldl (confStep eot) { sum := 0, min_p := 1, max_p := 0, valid := 0 }

/-- The per-segment confidence (source lines 346-353): trimmed mean for
more than two qualifying tokens, plain mean for one or two, zero for
none.  The divisor mirrors the integer subtraction in the source. -/
def segConfidence (eot : Int) (toks : List TokenRaw) : ℚ :=
  let a := confAcc eot toks
  if 2 < a.valid then (a.sum - a.min_p - a.max_p) / (((a.valid : Int) - 2 : Int) : ℚ)
  else if 0 < a.valid then a.sum / ((a.valid : Int) : ℚ)
  else 0

/-- Token extraction (source lines 322-334): the ×10 tick-to-millisecond
conversion applies only when token timestamps were requested, otherwise
the -1 defaults of `TokenData` remain.  The source stores the int64
product `token.t0 * 10` into the 32-bit `int` field of `TokenData`
(lines 28-29, 330-331), so the stored value is the narrowed one. -/
def buildTokenData (cfg : FullParamConfig) (t : TokenRaw) : TokenData :=
  { text := t.text, id := t.id, p := t.p,
    from_ms := if cfg.token_timestamps then int32Wrap (t.t0 * 10) else -1,
    to_ms := if cfg.token_timestamps then int32Wrap (t.t1 * 10) else -1 }

/-- One segment of `build_segments` (source lines 307-356): start/end
ticks ×10, verbatim text, and, only for detailed output, the tokens, the
aggregate confidence, and the globally detected language.  The source
stores the int64 products `t0 * 10` and `t1 * 10` into the 32-bit `int`
fields of `SegmentData` (lines 33-34, 309-310), so the stored values
are the narrowed ones. -/
def build_segment (st : EngineState) (cfg : FullParamConfig) (raw : SegmentRaw) : SegmentData :=
  let base : SegmentData :=
    { from_ms := int32Wrap (raw.t0 * 10), to_ms := int32Wrap (raw.t1 * 10), text := raw.text,
      confidence := 0, language := "", tokens := [] }
  if cfg.detailed then
    { base with
      tokens := raw.tokens.map (buildTokenData cfg),
      confidence := segConfidence st.eot raw.tokens,
      language := st.langStr }
  else base

/-- `build_segments` (source lines 297-388): the segments in decode
order. -/
def build_segments (st : EngineState) (cfg : FullParamConfig) : List SegmentData :=
  st.segments.map (build_segment st cfg)

/-- The probabilities of the qualifying tokens of a segment: those whose
id is not greater than the end-of-text id, in decode order. -/
def qualProbs (eot : Int) (toks : List TokenRaw) : List ℚ :=
  (toks.filter (fun t => decide (t.id ≤ eot))).map TokenRaw.p

/-- The raw language option value: the supplied string when the property
is present with a string value, `"auto"` otherwise. -/
def langRaw (o : Options) : String :=
  match optGet o "language" with
  | some (JVal.str s) => s
  | _ => "auto"

/-- The initial prompt value after the `initial_prompt` field alone. -/
def ipRaw (o : Options) : String :=
  match optGet o "initial_prompt" with
  | some (JVal.str s) => s
  | _ => ""

/-- The initial prompt after both `initial_prompt` and `prompt`. -/
def ipRes (o : Options) : String :=
  match optGet o "prompt" with
  | some (JVal.str s) => if ipRaw o = "" then s else ipRaw o
  | _ => ipRaw o

/-- The language option is absent, not a string, or the empty string. -/
def langDefaulted (o : Options) : Prop :=
  match optGet o "language" with
  | some (JVal.str s) => s = ""
  | _ => True

/-- The invariant of claim C10: a freed handle holds no context. -/
def HandleInv (h : WhisperHandle) : Prop :=
  h.freed = true → h.ctx = none

/-- A concrete stand-in for the engine default parameter record, used
only to instantiate universally quantified theorems in witnesses. -/
def exDefaults : WhisperFullParams :=
  { strategy := 0, n_threads := 4, n_max_text_ctx := 16384, offset_ms := 0,
    duration_ms := 0, translate := false, no_context := true,
    no_timestamps := false, single_segment := false, print_special := false,
    print_progress := true, print_realtime := false, print_timestamps := true,
    token_timestamps := false, thold_pt := 1/100, thold_ptsum := 1/100,
    max_len := 0, split_on_word := false, max_tokens := 0, debug_mode := false,
    audio_ctx := 0, tdrz_enable := false, suppress_blank := true,
    suppress_nst := false, temperature := 0, max_initial_ts := 1,
    length_penalty := -1, temperature_inc := 1/5, entropy_thold := 12/5,
    logprob_thold := -1, no_speech_thold := 3/5, greedy_best_of := 5,
    beam_search_beam_size := 5, detect_language := false, language := "en",
    initial_prompt := none }

/-- A live handle for witnesses. -/
def exLiveHandle : WhisperHandle := { ctx := some 0, freed := false }

/-- An already freed handle for witnesses. -/
def exFreedHandle : WhisperHandle := { ctx := none, freed := true }

/-- Witness options: an explicit greedy strategy together with a beam
size of 2. -/
def exOpts2 : Options := [("strategy", JVal.num 0), ("beam_size", JVal.num 2)]

/-- Witness options: only a `prompt`, no `initial_prompt`. -/
def exOptsPrompt : Options := [("prompt", JVal.str "a")]

/-- Witness options: a one-sample audio buffer and no language field. -/
def exOptsAudio : Options := [("audio", JVal.floatArr [1/2])]

/-- Witness options: only a file name. -/
def exOptsFname : Options := [("fname_inp", JVal.str "f")]

/-- Witness options for `init`: `gpu` and `use_gpu` disagreeing. -/
def exOptsGpu : Options :=
  [("model", JVal.str "m"), ("gpu", JVal.bool false), ("use_gpu", JVal.bool true)]

/-- A context loader that always succeeds, for witnesses. -/
def exEngineInit : String → WhisperContextParams → Option Nat := fun _ _ => some 0

/-- A concrete stand-in for `whisper_context_default_params()`. -/
def exCtxDefaults : WhisperContextParams := { use_gpu := true, flash_attn := false }

/-- An audio reader that always fails, for witnesses. -/
def exReadNone : String → Option (List ℚ) := fun _ => none

/-- The four qualifying probabilities 0.9, 0.9, 0.1, 0.95 of the spec
example, attached to token ids below the end-of-text id 100. -/
def exToks4 : List TokenRaw :=
  [{ text := "a", id := 1, p := 9/10, t0 := 0, t1 := 0 },
   { text := "b", id := 2, p := 9/10, t0 := 0, t1 := 0 },
   { text := "c", id := 3, p := 1/10, t0 := 0, t1 := 0 },
   { text := "d", id := 4, p := 19/20, t0 := 0, t1 := 0 }]

/-- The two qualifying probabilities 0.8 and 0.4 of the spec example. -/
def exToks2 : List TokenRaw :=
  [{ text := "a", id := 1, p := 4/5, t0 := 0, t1 := 0 },
   { text := "b", id := 2, p := 2/5, t0 := 0, t1 := 0 }]

/-- A token list with no qualifying token (id above the end-of-text id). -/
def exToks0 : List TokenRaw :=
  [{ text := "x", id := 101, p := 1/2, t0 := 0, t1 := 0 }]

/-- A configuration with detailed output and token timestamps on. -/
def exCfgDetail : FullParamConfig :=
  { params := exDefaults, initial_prompt := "", language := "auto",
    detailed := true, token_timestamps := true }

/-- Engine state holding the four-token example segment. -/
def exSt1 : EngineState :=
  { segments := [{ t0 := 0, t1 := 150, text := "hello", tokens := exToks4 }],
    eot := 100, langStr := "en" }

/-- Engine state with a segment starting at tick 150. -/
def exSt8 : EngineState :=
  { segments := [{ t0 := 150, t1 := 300, text := "x",
                   tokens := [{ text := "t", id := 1, p := 1/2, t0 := 5, t1 := 7 }] }],
    eot := 100, langStr := "en" }

/-- Engine state with a segment whose start tick times 10 (2147483650)
exceeds the signed 32-bit range. -/
def exStBig : EngineState :=
  { segments := [{ t0 := 214748365, t1 := 0, text := "", tokens := [] }],
    eot := 100, langStr := "en" }

/-!
### Frame lemmas for the parse chain

Each update step of `parseFields` touches only its own fields; these
lemmas let the claim proofs walk the chain without unfolding the whole
record computation.
-/

theorem updNumP_language (o : Options) (k : String)
    (f : WhisperFullParams → ℚ → WhisperFullParams) (c : FullParamConfig) :
    (updNumP o k f c).language = c.language := by
  unfold updNumP
  cases optGet o k with
  | none => rfl
  | some v => cases v <;> rfl

theorem updBoolP_language (o : Options) (k : String)
    (f : WhisperFullParams → Bool → WhisperFullParams) (c : FullParamConfig) :
    (updBoolP o k f c).language = c.language := by
  unfold updBoolP
  cases optGet o k with
  | none => rfl
  | some v => cases v <;> rfl

theorem updNumP_initial_prompt (o : Options) (k : String)
    (f : WhisperFullParams → ℚ → WhisperFullParams) (c : FullParamConfig) :
    (updNumP o k f c).initial_prompt = c.initial_prompt := by
  unfold updNumP
  cases optGet o k with
  | none => rfl
  | some v => cases v <;> rfl

theorem updBoolP_initial_prompt (o : Options) (k : String)
    (f : WhisperFullParams → Bool → WhisperFullParams) (c : FullParamConfig) :
    (updBoolP o k f c).initial_prompt = c.initial_prompt := by
  unfold updBoolP
  cases optGet o k with
  | none => rfl
  | some v => cases v <;> rfl

theorem printProgressStep_initial_prompt (o : Options) (c : FullParamConfig) :
    (printProgressStep o c).initial_prompt = c.initial_prompt := by
  unfold printProgressStep
  cases optGet o "print_progress" with
  | none => rfl
  | some v => cases v <;> rfl

theorem tokenTsCopyStep_initial_prompt (c : FullParamConfig) :
    (tokenTsCopyStep c).initial_prompt = c.initial_prompt := rfl

theorem languageStep_initial_prompt (o : Options) (c : FullParamConfig) :
    (languageStep o c).initial_prompt = c.initial_prompt := by
  unfold languageStep
  cases optGet o "language" with
  | none => rfl
  | some v => cases v <;> rfl

theorem languageStep_language (o : Options) (c : FullParamConfig) :
    (languageStep o c).language = langRaw o := by
  unfold languageStep langRaw
  cases optGet o "language" with
  | none => rfl
  | some v => cases v <;> rfl

theorem initialPromptStep_initial_prompt (o : Options) (c : FullParamConfig) :
    (initialPromptStep o c).initial_prompt =
      match optGet o "initial_prompt" with
      | some (JVal.str s) => s
      | _ => c.initial_prompt := by
  unfold initialPromptStep
  cases optGet o "initial_prompt" with
  | none => rfl
  | some v => cases v <;> rfl

theorem promptStep_language (o : Options) (c : FullParamConfig) :
    (promptStep o c).language = c.language := by
  unfold promptStep
  cases optGet o "prompt" with
  | none => rfl
  | some v =>
    cases v <;> first
      | rfl
      | (rename_i s; by_cases hc : c.initial_prompt = "" <;> simp [hc])

theorem promptStep_params (o : Options) (c : FullParamConfig) :
    (promptStep o c).params = c.params := by
  unfold promptStep
  cases optGet o "prompt" with
  | none => rfl
  | some v =>
    cases v <;> first
      | rfl
      | (rename_i s; by_cases hc : c.initial_prompt = "" <;> simp [hc])

theorem promptStep_initial_prompt (o : Options) (c : FullParamConfig) :
    (promptStep o c).initial_prompt =
      match optGet o "prompt" with
      | some (JVal.str s) => if c.initial_prompt = "" then s else c.initial_prompt
      | _ => c.initial_prompt := by
  unfold promptStep
  cases optGet o "prompt" with
  | none => rfl
  | some v =>
    cases v <;> first
      | rfl
      | (rename_i s; by_cases hc : c.initial_prompt = "" <;> simp [hc])

theorem formatStep_language (o : Options) (c : FullParamConfig) :
    (formatStep o c).language = c.language := by
  unfold formatStep
  cases optGet o "format" with
  | none => rfl
  | some v => cases v <;> rfl

theorem formatStep_initial_prompt (o : Options) (c : FullParamConfig) :
    (formatStep o c).initial_prompt = c.initial_prompt := by
  unfold formatStep
  cases optGet o "format" with
  | none => rfl
  | some v => cases v <;> rfl

theorem formatStep_params (o : Options) (c : FullParamConfig) :
    (formatStep o c).params = c.params := by
  unfold formatStep
  cases optGet o "format" with
  | none => rfl
  | some v => cases v <;> rfl

theorem detectLanguageStep_strategy (o : Options) (c : FullParamConfig) :
    (detectLanguageStep o c).params.strategy = c.params.strategy := by
  unfold detectLanguageStep updBoolP
  cases optGet o "detect_language" with
  | none => rfl
  | some v => cases v <;> rfl

theorem langFixStep_language (c : FullParamConfig) :
    (langFixStep c).language = normLang c.language := rfl

theorem langFixStep_initial_prompt (c : FullParamConfig) :
    (langFixStep c).initial_prompt = c.initial_prompt := rfl

theorem langFixStep_params (c : FullParamConfig) :
    (langFixStep c).params = c.params := rfl

/-- The language produced by the whole parse chain: the raw option value
run through the parse-time empty-string normalization. -/
theorem parseFields_language (d : WhisperFullParams) (o : Options) :
    (parseFields d o).language = normLang (langRaw o) := by
  simp only [parseFields, detectLanguageStep, langFixStep_language, updBoolP_language,
    formatStep_language, promptStep_language, updNumP_language, languageStep_language]

/-- The initial prompt produced by the whole parse chain. -/
theorem parseFields_initial_prompt (d : WhisperFullParams) (o : Options) :
    (parseFields d o).initial_prompt = ipRes o := by
  simp only [parseFields, detectLanguageStep, langFixStep_initial_prompt,
    updBoolP_initial_prompt, formatStep_initial_prompt, promptStep_initial_prompt,
    updNumP_initial_prompt, languageStep_initial_prompt, initialPromptStep_initial_prompt,
    printProgressStep_initial_prompt, tokenTsCopyStep_initial_prompt, ipRes, ipRaw]

/-- Unfolding equation of `updNumP` for a present numeric property. -/
theorem updNumP_get (o : Options) (k : String)
    (f : WhisperFullParams → ℚ → WhisperFullParams) (c : FullParamConfig) (q : ℚ)
    (h : optGet o k = some (JVal.num q)) :
    updNumP o k f c = { c with params := f c.params q } := by
  unfold updNumP
  rw [h]

/-- A beam width above 1 forces the beam-search strategy. -/
theorem beamUpd_strategy (p : WhisperFullParams) (q : ℚ) (h : 1 < int32Of q) :
    (beamUpd p q).strategy = WHISPER_SAMPLING_BEAM_SEARCH := by
  unfold beamUpd
  dsimp only
  split
  · rfl
  · rename_i hc
    exact absurd h hc

/-- The empty-language normalization never yields an empty string. -/
theorem normLang_ne_empty (s : String) : normLang s ≠ "" := by
  unfold normLang
  split
  · decide
  · assumption

/-!
### The confidence fold
-/

/-- The confidence loop accumulator, characterized over the qualifying
probability list. -/
theorem confStep_foldl (eot : Int) (toks : List TokenRaw) (a : ConfAcc) :
    toks.foldl (confStep eot) a =
      { sum := a.sum + (qualProbs eot toks).sum,
        min_p := (qualProbs eot toks).foldl min a.min_p,
        max_p := (qualProbs eot toks).foldl max a.max_p,
        valid := a.valid + (qualProbs eot toks).length } := by
  induction toks generalizing a with
  | nil => cases a; simp [qualProbs]
  | cons t ts ih =>
    by_cases hid : eot < t.id
    · have hd : decide (t.id ≤ eot) = false := by simp [not_le.mpr hid]
      simp [qualProbs, List.filter_cons, hd, confStep, hid, ih] at *
    · have hd : decide (t.id ≤ eot) = true := by simp [not_lt.mp hid]
      have := ih (confStep eot a t)
      simp only [List.foldl_cons, this]
      simp [qualProbs, List.filter_cons, hd, confStep, hid]
      constructor
      · ring
      · omega

/-- `confAcc` in terms of the qualifying probabilities. -/
theorem confAcc_eq (eot : Int) (toks : List TokenRaw) :
    confAcc eot toks =
      { sum := (qualProbs eot toks).sum,
        min_p := (qualProbs eot toks).foldl min 1,
        max_p := (qualProbs eot toks).foldl max 0,
        valid := (qualProbs eot toks).length } := by
  unfold confAcc
  rw [confStep_foldl]
  simp

theorem foldl_min_le_init (l : List ℚ) (a : ℚ) : l.foldl min a ≤ a := by
  induction l generalizing a with
  | nil => exact le_refl a
  | cons x xs ih => exact le_trans (ih (min a x)) (min_le_left a x)

theorem foldl_min_le_mem (l : List ℚ) (a : ℚ) : ∀ x ∈ l, l.foldl min a ≤ x := by
  induction l generalizing a with
  | nil => intro x hx; cases hx
  | cons y ys ih =>
    intro x hx
    rcases List.mem_cons.mp hx with hxy | hx'
    · subst hxy
      exact le_trans (foldl_min_le_init ys (min a x)) (min_le_right a x)
    · exact ih (min a y) x hx'

theorem foldl_min_mem (l : List ℚ) (a : ℚ) : l.foldl min a = a ∨ l.foldl min a ∈ l := by
  induction l generalizing a with
  | nil => exact Or.inl rfl
  | cons x xs ih =>
    rcases ih (min a x) with h | h
    · rcases le_total a x with hax | hxa
      · exact Or.inl (by rw [List.foldl_cons, h, min_eq_left hax])
      · exact Or.inr (by rw [List.foldl_cons, h, min_eq_right hxa]; exact List.mem_cons_self x xs)
    · exact Or.inr (List.mem_cons_of_mem x h)

theorem foldl_max_init_le (l : List ℚ) (a : ℚ) : a ≤ l.foldl max a := by
  induction l generalizing a with
  | nil => exact le_refl a
  | cons x xs ih => exact le_trans (le_max_left a x) (ih (max a x))

theorem foldl_max_mem_le (l : List ℚ) (a : ℚ) : ∀ x ∈ l, x ≤ l.foldl max a := by
  induction l generalizing a with
  | nil => intro x hx; cases hx
  | cons y ys ih =>
    intro x hx
    rcases List.mem_cons.mp hx with hxy | hx'
    · subst hxy
      exact le_trans (le_max_right a x) (foldl_max_init_le ys (max a x))
    · exact ih (max a y) x hx'

theorem foldl_max_mem (l : List ℚ) (a : ℚ) : l.foldl max a = a ∨ l.foldl max a ∈ l := by
  induction l generalizing a with
  | nil => exact Or.inl rfl
  | cons x xs ih =>
    rcases ih (max a x) with h | h
    · rcases le_total a x with hax | hxa
      · exact Or.inr (by rw [List.foldl_cons, h, max_eq_right hax]; exact List.mem_cons_self x xs)
      · exact Or.inl (by rw [List.foldl_cons, h, max_eq_left hxa])
    · exact Or.inr (List.mem_cons_of_mem x h)

/-- For a non-empty list bounded above by 1, the fold seeded with 1 is
a member of the list (and bounds every member from below). -/
theorem foldl_min_one_mem (l : List ℚ) (hne : l ≠ []) (hb : ∀ x ∈ l, x ≤ 1) :
    l.foldl min 1 ∈ l := by
  rcases foldl_min_mem l 1 with h | h
  · obtain ⟨y, hy⟩ : ∃ y, y ∈ l := by
      cases l with
      | nil => exact absurd rfl hne
      | cons z zs => exact ⟨z, List.mem_cons_self z zs⟩
    have h1 : l.foldl min 1 ≤ y := foldl_min_le_mem l 1 y hy
    have h2 : y ≤ l.foldl min 1 := by rw [h]; exact hb y hy
    have : y = l.foldl min 1 := le_antisymm h2 h1
    exact this ▸ hy
  · exact h

/-- For a non-empty list bounded below by 0, the fold seeded with 0 is
a member of the list. -/
theorem foldl_max_zero_mem (l : List ℚ) (hne : l ≠ []) (hb : ∀ x ∈ l, 0 ≤ x) :
    l.foldl max 0 ∈ l := by
  rcases foldl_max_mem l 0 with h | h
  · obtain ⟨y, hy⟩ : ∃ y, y ∈ l := by
      cases l with
      | nil => exact absurd rfl hne
      | cons z zs => exact ⟨z, List.mem_cons_self z zs⟩
    have h1 : y ≤ l.foldl max 0 := foldl_max_mem_le l 0 y hy
    have h2 : l.foldl max 0 ≤ y := by rw [h]; exact hb y hy
    have : y = l.foldl max 0 := le_antisymm h1 h2
    exact this ▸ hy
  · exact h

/-- Every qualifying probability of a segment whose token probabilities
lie in [0, 1] also lies in [0, 1]. -/
theorem qualProbs_bounds (eot : Int) (toks : List TokenRaw)
    (hb : ∀ t ∈ toks, 0 ≤ t.p ∧ t.p ≤ 1) :
    ∀ x ∈ qualProbs eot toks, 0 ≤ x ∧ x ≤ 1 := by
  intro x hx
  simp only [qualProbs, List.mem_map, List.mem_filter] at hx
  obtain ⟨t, ⟨ht, _⟩, rfl⟩ := hx
  exact hb t ht

/-- A successful parse yields exactly the field-by-field translation. -/
theorem parse_ok_eq (d : WhisperFullParams) (o : Options) (cfg : FullParamConfig)
    (hok : parse_full_params d o = Except.ok cfg) : cfg = parseFields d o := by
  unfold parse_full_params at hok
  split at hok
  · injection hok with h
    exact h.symm
  · exact Except.noConfusion hok

/-!
### Claim theorems
-/

/-- C1: for every segment built with detailed output, the confidence is
computed only over tokens whose id is not greater than the end-of-text
token id: more than 2 qualifying tokens give the trimmed mean (sum minus
the single minimum and single maximum, divided by count - 2), 1 or 2
give the plain mean, 0 gives 0; in particular qualifying probabilities
[0.9, 0.9, 0.1, 0.95] yield 0.90 and [0.8, 0.4] yield 0.6. -/
theorem conf_trimmed_mean_spec :
    (∀ (st : EngineState) (cfg : FullParamConfig) (raw : SegmentRaw),
      cfg.detailed = true → (∀ t ∈ raw.tokens, 0 ≤ t.p ∧ t.p ≤ 1) →
      (build_segment st cfg raw).confidence = segConfidence st.eot raw.tokens ∧
      (2 < (qualProbs st.eot raw.tokens).length →
        ∃ mn ∈ qualProbs st.eot raw.tokens, ∃ mx ∈ qualProbs st.eot raw.tokens,
          (∀ x ∈ qualProbs st.eot raw.tokens, mn ≤ x ∧ x ≤ mx) ∧
          (build_segment st cfg raw).confidence =
            ((qualProbs st.eot raw.tokens).sum - mn - mx) /
              (((qualProbs st.eot raw.tokens).length : ℚ) - 2)) ∧
      (((qualProbs st.eot raw.tokens).length = 1 ∨ (qualProbs st.eot raw.tokens).length = 2) →
        (build_segment st cfg raw).confidence =
          (qualProbs st.eot raw.tokens).sum / ((qualProbs st.eot raw.tokens).length : ℚ)) ∧
      ((qualProbs st.eot raw.tokens).length = 0 → (build_segment st cfg raw).confidence = 0)) ∧
    segConfidence 100 exToks4 = 9/10 ∧
    segConfidence 100 exToks2 = 3/5 ∧
    segConfidence 100 exToks0 = 0 ∧
    (build_segment exSt1 exCfgDetail
      { t0 := 0, t1 := 150, text := "hello", tokens := exToks4 }).confidence = 9/10 := by
  have hc4 : segConfidence 100 exToks4 = 9/10 := by
    norm_num [segConfidence, confAcc, confStep, exToks4, List.foldl_cons, List.foldl_nil,
      min_def, max_def]
  have hc2 : segConfidence 100 exToks2 = 3/5 := by
    norm_num [segConfidence, confAcc, confStep, exToks2, List.foldl_cons, List.foldl_nil,
      min_def, max_def]
  have hc0 : segConfidence 100 exToks0 = 0 := by
    norm_num [segConfidence, confAcc, confStep, exToks0, List.foldl_cons, List.foldl_nil]
  have hbs : (build_segment exSt1 exCfgDetail
      { t0 := 0, t1 := 150, text := "hello", tokens := exToks4 }).confidence = 9/10 := by
    rw [show (build_segment exSt1 exCfgDetail
      { t0 := 0, t1 := 150, text := "hello", tokens := exToks4 }).confidence =
        segConfidence exSt1.eot exToks4 from by simp [build_segment, exCfgDetail]]
    exact hc4
  refine ⟨?_, hc4, hc2, hc0, hbs⟩
  intro st cfg raw hdet hb
  have hconf : (build_segment st cfg raw).confidence = segConfidence st.eot raw.tokens := by
    simp [build_segment, hdet]
  have hacc := confAcc_eq st.eot raw.tokens
  have hbnd := qualProbs_bounds st.eot raw.tokens hb
  refine ⟨hconf, ?_, ?_, ?_⟩
  · intro hlen
    have hne : qualProbs st.eot raw.tokens ≠ [] := by
      intro h0
      rw [h0] at hlen
      simp at hlen
    have hmn := foldl_min_one_mem (qualProbs st.eot raw.tokens) hne
      (fun x hx => (hbnd x hx).2)
    have hmx := foldl_max_zero_mem (qualProbs st.eot raw.tokens) hne
      (fun x hx => (hbnd x hx).1)
    refine ⟨(qualProbs st.eot raw.tokens).foldl min 1, hmn,
      (qualProbs st.eot raw.tokens).foldl max 0, hmx, ?_, ?_⟩
    · intro x hx
      exact ⟨foldl_min_le_mem _ 1 x hx, foldl_max_mem_le _ 0 x hx⟩
    · rw [hconf]
      unfold segConfidence
      rw [hacc]
      dsimp only
      rw [if_pos hlen]
      push_cast
      ring
  · intro hlen
    rw [hconf]
    unfold segConfidence
    rw [hacc]
    dsimp only
    rw [if_neg (by omega), if_pos (by omega)]
    push_cast
    ring
  · intro hlen
    rw [hconf]
    unfold segConfidence
    rw [hacc]
    dsimp only
    rw [if_neg (by omega), if_neg (by omega)]

/-- C1 witness: the universal characterization instantiated at the
four-token example segment, with the concrete 0.90 value. -/
theorem conf_trimmed_mean_spec_witness :
    segConfidence 100 exToks4 = 9/10 ∧
    (build_segment exSt1 exCfgDetail
      { t0 := 0, t1 := 150, text := "hello", tokens := exToks4 }).confidence =
      segConfidence exSt1.eot exToks4 :=
  ⟨conf_trimmed_mean_spec.2.1,
   (conf_trimmed_mean_spec.1 exSt1 exCfgDetail
      { t0 := 0, t1 := 150, text := "hello", tokens := exToks4 } rfl
      (by norm_num [exToks4, List.forall_mem_cons])).1⟩

/-- C2: if beam_size > 1 is supplied then the final parameter record has
the beam-search strategy, regardless of any explicitly supplied strategy
value (the strategy field is applied first, the beam-size override
afterward in `parseFields`). -/
theorem beam_size_forces_beam_search (d : WhisperFullParams) (o : Options) (q : ℚ)
    (cfg : FullParamConfig) (hok : parse_full_params d o = Except.ok cfg)
    (hb : optGet o "beam_size" = some (JVal.num q)) (hq : 1 < int32Of q) :
    cfg.params.strategy = WHISPER_SAMPLING_BEAM_SEARCH := by
  rw [parse_ok_eq d o cfg hok]
  simp only [parseFields, langFixStep_params, detectLanguageStep_strategy, formatStep_params,
    promptStep_params]
  rw [updNumP_get o "beam_size" beamUpd _ q hb]
  exact beamUpd_strategy _ q hq

/-- C2 witness: `beam_size: 2` together with `strategy: greedy` (the
enumeration value 0) yields the beam-search strategy. -/
theorem beam_size_forces_beam_search_witness :
    ∃ cfg, parse_full_params exDefaults exOpts2 = Except.ok cfg ∧
      cfg.params.strategy = WHISPER_SAMPLING_BEAM_SEARCH :=
  ⟨parseFields exDefaults exOpts2, rfl,
    beam_size_forces_beam_search exDefaults exOpts2 2 _ rfl rfl (by decide)⟩

/-- C7: the prompt key populates the initial prompt only when
initial_prompt was not already supplied as a non-empty string; when a
non-empty initial_prompt is supplied its value is used unchanged. -/
theorem prompt_priority (d : WhisperFullParams) (o : Options) (cfg : FullParamConfig)
    (hok : parse_full_params d o = Except.ok cfg) :
    (∀ s, optGet o "initial_prompt" = some (JVal.str s) → s ≠ "" →
      cfg.initial_prompt = s) ∧
    ((∀ s, optGet o "initial_prompt" = some (JVal.str s) → s = "") →
      ∀ s, optGet o "prompt" = some (JVal.str s) → cfg.initial_prompt = s) := by
  rw [parse_ok_eq d o cfg hok, parseFields_initial_prompt]
  constructor
  · intro s hs hne
    unfold ipRes ipRaw
    rw [hs]
    dsimp only
    cases hp : optGet o "prompt" with
    | none => rfl
    | some v =>
      cases v <;> try rfl
      dsimp only
      rw [if_neg hne]
  · intro hempty s hp
    have hz : ipRaw o = "" := by
      unfold ipRaw
      cases hg : optGet o "initial_prompt" with
      | none => rfl
      | some v =>
        cases v <;> try rfl
        rename_i t
        exact hempty t hg
    unfold ipRes
    rw [hp, hz]
    rfl

/-- C7 witness: `prompt: "a"` with no `initial_prompt` yields initial
prompt `"a"`. -/
theorem prompt_priority_witness :
    ∃ cfg, parse_full_params exDefaults exOptsPrompt = Except.ok cfg ∧
      cfg.initial_prompt = "a" :=
  ⟨parseFields exDefaults exOptsPrompt, rfl,
    (prompt_priority exDefaults exOptsPrompt _ rfl).2
      (fun _ h => Option.noConfusion h) "a" rfl⟩

/-- The 32-bit narrowing is the identity on values already in range. -/
theorem int32Wrap_eq_self (n : Int) (h1 : -(2 ^ 31) ≤ n) (h2 : n < 2 ^ 31) :
    int32Wrap n = n := by
  unfold int32Wrap
  have e1 : (2 : Int) ^ 32 = 4294967296 := by norm_num
  have e2 : (2 : Int) ^ 31 = 2147483648 := by norm_num
  rw [e2] at h1 h2
  rw [e1, e2]
  dsimp only
  split <;> omega

/-- C8 counterexample: a segment whose start tick times 10 does not fit
in a signed 32-bit int is stored wrapped, so its start time is not the
tick value multiplied by 10. -/
theorem tick_times_ten_wraps :
    ∃ seg, (build_segments exStBig exCfgDetail)[0]? = some seg ∧
      seg.from_ms = -2147483646 ∧ seg.from_ms ≠ 214748365 * 10 := by
  exact ⟨_, rfl, by decide, by decide⟩

/-- C8 (amended): every built segment stores the 32-bit narrowed value
of the engine centisecond ticks multiplied by 10; whenever tick times 10
fits in a signed 32-bit int, the stored time is exactly tick times 10,
and the same holds for token start/end times when token timestamps were
requested; tick 150 maps to 1500 ms. -/
theorem tick_to_ms_times_ten :
    (∀ (st : EngineState) (cfg : FullParamConfig) (i : ℕ) (seg : SegmentData),
      (build_segments st cfg)[i]? = some seg →
      ∃ raw, st.segments[i]? = some raw ∧
        seg.from_ms = int32Wrap (raw.t0 * 10) ∧ seg.to_ms = int32Wrap (raw.t1 * 10) ∧
        (-(2 ^ 31) ≤ raw.t0 * 10 → raw.t0 * 10 < 2 ^ 31 → seg.from_ms = raw.t0 * 10) ∧
        (-(2 ^ 31) ≤ raw.t1 * 10 → raw.t1 * 10 < 2 ^ 31 → seg.to_ms = raw.t1 * 10) ∧
        (cfg.detailed = true → cfg.token_timestamps = true →
          ∀ (j : ℕ) (t : TokenRaw), raw.tokens[j]? = some t →
            ∃ td, seg.tokens[j]? = some td ∧
              td.from_ms = int32Wrap (t.t0 * 10) ∧ td.to_ms = int32Wrap (t.t1 * 10) ∧
              (-(2 ^ 31) ≤ t.t0 * 10 → t.t0 * 10 < 2 ^ 31 → td.from_ms = t.t0 * 10) ∧
              (-(2 ^ 31) ≤ t.t1 * 10 → t.t1 * 10 < 2 ^ 31 → td.to_ms = t.t1 * 10))) ∧
    (build_segments exSt8 exCfgDetail).map SegmentData.from_ms = [1500] ∧
    (build_segments exSt8 exCfgDetail).map SegmentData.to_ms = [3000] := by
  refine ⟨?_, by decide, by decide⟩
  intro st cfg i seg hseg
  simp only [build_segments, List.getElem?_map] at hseg
  cases hmem : st.segments[i]? with
  | none =>
    rw [hmem] at hseg
    simp at hseg
  | some raw =>
    rw [hmem] at hseg
    simp only [Option.map_some'] at hseg
    injection hseg with hseg
    have hfrom : (build_segment st cfg raw).from_ms = int32Wrap (raw.t0 * 10) := by
      unfold build_segment
      dsimp only
      split <;> rfl
    have hto : (build_segment st cfg raw).to_ms = int32Wrap (raw.t1 * 10) := by
      unfold build_segment
      dsimp only
      split <;> rfl
    refine ⟨raw, rfl, by rw [← hseg]; exact hfrom, by rw [← hseg]; exact hto, ?_, ?_, ?_⟩
    · intro hlo hhi
      rw [← hseg, hfrom]
      exact int32Wrap_eq_self _ hlo hhi
    · intro hlo hhi
      rw [← hseg, hto]
      exact int32Wrap_eq_self _ hlo hhi
    · intro hdet htt j t ht
      have htok : (build_segment st cfg raw).tokens = raw.tokens.map (buildTokenData cfg) := by
        unfold build_segment
        dsimp only
        rw [if_pos hdet]
      rw [← hseg, htok, List.getElem?_map, ht]
      refine ⟨buildTokenData cfg t, rfl, by simp [buildTokenData, htt], by simp [buildTokenData, htt],
        ?_, ?_⟩
      · intro hlo hhi
        rw [show (buildTokenData cfg t).from_ms = int32Wrap (t.t0 * 10) from by
          simp [buildTokenData, htt]]
        exact int32Wrap_eq_self _ hlo hhi
      · intro hlo hhi
        rw [show (buildTokenData cfg t).to_ms = int32Wrap (t.t1 * 10) from by
          simp [buildTokenData, htt]]
        exact int32Wrap_eq_self _ hlo hhi

/-- C8 witness: the universal statement instantiated on the segment with
ticks 150/300, whose products by 10 are in the 32-bit range, so the
stored times equal the tick values multiplied by 10. -/
theorem tick_to_ms_times_ten_witness :
    ∃ raw, exSt8.segments[0]? = some raw ∧
      ∃ seg, (build_segments exSt8 exCfgDetail)[0]? = some seg ∧
        seg.from_ms = raw.t0 * 10 ∧ seg.to_ms = raw.t1 * 10 := by
  obtain ⟨raw, hmem, -, -, hc0, hc1, -⟩ := tick_to_ms_times_ten.1 exSt8 exCfgDetail 0 _ rfl
  have h2 := hmem
  simp only [exSt8, List.getElem?_cons_zero, Option.some.injEq] at h2
  subst h2
  exact ⟨_, hmem, _, rfl, hc0 (by decide) (by decide), hc1 (by decide) (by decide)⟩

/-- Decomposition of a successful `full_call`: the guard passed, every
stage succeeded, and the prepared call is the parse result with the
second language normalization and the string wiring applied. -/
theorem full_call_ok (d : WhisperFullParams) (h : WhisperHandle) (o : Options)
    (ra : String → Option (List ℚ)) (pc : PreparedCall)
    (hok : full_call d h o ra = Except.ok pc) :
    ∃ samples cfg0 np,
      (h.freed || h.ctx.isNone) = false ∧
      resolveAudio o ra = Except.ok samples ∧
      parse_full_params d o = Except.ok cfg0 ∧
      nProcessorsOf o = Except.ok np ∧
      pc.samples = samples ∧
      pc.n_processors = np ∧
      pc.cfg.language = normLang cfg0.language ∧
      pc.cfg.params.language = normLang cfg0.language ∧
      pc.cfg.initial_prompt = cfg0.initial_prompt := by
  unfold full_call at hok
  split at hok
  · exact Except.noConfusion hok
  · rename_i hcond
    split at hok
    · exact Except.noConfusion hok
    · rename_i samples hres
      split at hok
      · exact Except.noConfusion hok
      · rename_i cfg0 hparse
        dsimp only at hok
        split at hok
        · exact Except.noConfusion hok
        · rename_i np hnp
          injection hok with hpc
          refine ⟨samples, cfg0, np, ?_, hres, hparse, hnp,
            ?_, ?_, ?_, ?_, ?_⟩
          · revert hcond
            cases h.freed || h.ctx.isNone <;> simp
          all_goals rw [← hpc]
          all_goals rfl

/-- Helper for C3: a defaulted language option normalizes to auto. -/
theorem langRaw_defaulted (o : Options) (hd : langDefaulted o) :
    normLang (langRaw o) = "auto" := by
  unfold langDefaulted at hd
  unfold langRaw
  cases hg : optGet o "language" with
  | none => simp [normLang]
  | some v =>
    rw [hg] at hd
    cases v with
    | str s =>
      dsimp only at hd ⊢
      subst hd
      rfl
    | num q => simp [normLang]
    | bool b => simp [normLang]
    | floatArr a => simp [normLang]
    | other => simp [normLang]

/-- C3: the language string handed to the engine is `"auto"` whenever the
language field is absent, non-string, or empty, and is never empty; the
normalization is applied at parse time (the parse result is already
non-empty) and once more before the decode call. -/
theorem language_auto_never_empty (d : WhisperFullParams) (h : WhisperHandle) (o : Options)
    (ra : String → Option (List ℚ)) (pc : PreparedCall)
    (hok : full_call d h o ra = Except.ok pc) :
    pc.cfg.params.language ≠ "" ∧
    (langDefaulted o → pc.cfg.params.language = "auto") ∧
    ∃ cfg0, parse_full_params d o = Except.ok cfg0 ∧ cfg0.language ≠ "" ∧
      pc.cfg.language = normLang cfg0.language ∧
      pc.cfg.params.language = pc.cfg.language := by
  obtain ⟨samples, cfg0, np, hcond, hres, hparse, hnp, hs, hn, hl, hpl, hip⟩ :=
    full_call_ok d h o ra pc hok
  have hlang0 : cfg0.language = normLang (langRaw o) := by
    rw [parse_ok_eq d o cfg0 hparse, parseFields_language]
  refine ⟨?_, ?_, cfg0, hparse, ?_, hl, ?_⟩
  · rw [hpl]
    exact normLang_ne_empty _
  · intro hd
    rw [hpl, hlang0, langRaw_defaulted o hd]
    simp [normLang]
  · rw [hlang0]
    exact normLang_ne_empty _
  · rw [hpl, hl]

/-- C3 witness: a run with an audio buffer and no language field hands
`"auto"` to the engine. -/
theorem language_auto_never_empty_witness :
    ∃ pc, full_call exDefaults exLiveHandle exOptsAudio exReadNone = Except.ok pc ∧
      pc.cfg.params.language = "auto" := by
  refine ⟨_, rfl, ?_⟩
  exact (language_auto_never_empty exDefaults exLiveHandle exOptsAudio exReadNone _ rfl).2.1
    trivial

/-- C4: calling the transcription entry point on a freed handle fails
with the resource-state error and never reaches the engine call. -/
theorem run_on_freed_handle_fails (d : WhisperFullParams) (h : WhisperHandle) (o : Options)
    (ra : String → Option (List ℚ)) (hf : h.freed = true) :
    full_call d h o ra = Except.error "Model has been freed" ∧
    ∀ pc, full_call d h o ra ≠ Except.ok pc := by
  have he : full_call d h o ra = Except.error "Model has been freed" := by
    unfold full_call
    rw [hf]
    rfl
  exact ⟨he, fun pc hpc => Except.noConfusion (he ▸ hpc)⟩

/-- C4 witness: the freed example handle. -/
theorem run_on_freed_handle_fails_witness :
    full_call exDefaults exFreedHandle exOptsAudio exReadNone =
      Except.error "Model has been freed" :=
  (run_on_freed_handle_fails exDefaults exFreedHandle exOptsAudio exReadNone rfl).1

/-- C5: release is idempotent: a second release (by either the explicit
path or the finalizer) after any release is an observable no-op that
does not call the engine free, the freed flag transitions false to true
on the first effective release, and a release on an already freed
handle changes nothing. -/
theorem free_model_idempotent (h : WhisperHandle) :
    free_model (free_model h).1 = ((free_model h).1, false) ∧
    finalizeHandle (free_model h).1 = ((free_model h).1, false) ∧
    free_model (finalizeHandle h).1 = ((finalizeHandle h).1, false) ∧
    finalizeHandle (finalizeHandle h).1 = ((finalizeHandle h).1, false) ∧
    (h.freed = false → h.ctx.isSome = true →
      (free_model h).1.freed = true ∧ (free_model h).2 = true ∧
      (free_model h).1.ctx = none) ∧
    (h.freed = true → free_model h = (h, false) ∧ finalizeHandle h = (h, false)) := by
  obtain ⟨ctx, freed⟩ := h
  cases ctx <;> cases freed <;> simp [free_model, finalizeHandle]

/-- C5 witness: a live handle, freed once, then freed again. -/
theorem free_model_idempotent_witness :
    free_model (free_model exLiveHandle).1 = ((free_model exLiveHandle).1, false) ∧
    (free_model exLiveHandle).1.freed = true ∧ (free_model exLiveHandle).2 = true := by
  obtain ⟨h1, -, -, -, h5, -⟩ := free_model_idempotent exLiveHandle
  exact ⟨h1, (h5 rfl rfl).1, (h5 rfl rfl).2.1⟩

/-- Helper for C6: a non-empty buffer short-circuits audio resolution. -/
theorem resolveAudio_of_buffer (o : Options) (ra : String → Option (List ℚ))
    (hA : extract_audio o ≠ []) :
    resolveAudio o ra = Except.ok (extract_audio o) := by
  unfold resolveAudio
  dsimp only
  cases hl : extract_audio o with
  | nil => exact absurd hl hA
  | cons a as => rfl

/-- C6 counterexample: with no audio buffer, a file name, and a file
reader that succeeds with zero samples, the call reaches the engine with
empty samples instead of failing with the no-audio error before any
engine call. -/
theorem audio_empty_read_reaches_engine :
    ∃ pc, full_call exDefaults exLiveHandle exOptsFname (fun _ => some []) = Except.ok pc ∧
      pc.samples = ([] : List ℚ) := by
  exact ⟨_, rfl, rfl⟩

/-- C6 (amended): a supplied non-empty in-memory audio buffer takes
precedence over a file path; if no non-empty buffer and no file path is
supplied, the call fails with the no-audio error before any engine call;
a file path whose read fails yields the read error. -/
theorem audio_validation_amended (d : WhisperFullParams) (h : WhisperHandle) (o : Options)
    (ra : String → Option (List ℚ))
    (hfr : h.freed = false) (hctx : h.ctx.isSome = true) :
    (extract_audio o = [] → extract_files o = [] →
      full_call d h o ra =
        Except.error "No audio provided (audio buffer or fname_inp required)") ∧
    (∀ f fs, extract_audio o = [] → extract_files o = f :: fs → ra f = none →
      full_call d h o ra = Except.error "Failed to read input audio file") ∧
    (extract_audio o ≠ [] →
      (∀ ra2, full_call d h o ra = full_call d h o ra2) ∧
      (∀ pc, full_call d h o ra = Except.ok pc → pc.samples = extract_audio o)) := by
  have hcond : (h.freed || h.ctx.isNone) = false := by
    rw [hfr]
    cases hc : h.ctx with
    | none => rw [hc] at hctx; simp at hctx
    | some c => simp [hc]
  refine ⟨?_, ?_, ?_⟩
  · intro hA hF
    unfold full_call
    rw [hcond, if_neg Bool.false_ne_true]
    have hres : resolveAudio o ra =
        Except.error "No audio provided (audio buffer or fname_inp required)" := by
      simp [resolveAudio, hA, hF]
    rw [hres]
  · intro f fs hA hF hra
    unfold full_call
    rw [hcond, if_neg Bool.false_ne_true]
    have hres : resolveAudio o ra = Except.error "Failed to read input audio file" := by
      simp [resolveAudio, hA, hF, hra]
    rw [hres]
  · intro hA
    constructor
    · intro ra2
      unfold full_call
      rw [resolveAudio_of_buffer o ra hA, resolveAudio_of_buffer o ra2 hA]
    · intro pc hok
      obtain ⟨samples, cfg0, np, -, hres, -, -, hs, -⟩ := full_call_ok d h o ra pc hok
      rw [resolveAudio_of_buffer o ra hA] at hres
      injection hres with h2
      rw [hs, ← h2]

/-- C6 (amended) witness: no buffer and no file name yields the
no-audio error on a live handle. -/
theorem audio_validation_amended_witness :
    full_call exDefaults exLiveHandle ([] : Options) exReadNone =
      Except.error "No audio provided (audio buffer or fname_inp required)" :=
  (audio_validation_amended exDefaults exLiveHandle [] exReadNone rfl rfl).1 rfl rfl

/-- C9: in init, when both gpu and use_gpu are present, gpu takes
precedence and use_gpu is ignored; when neither is present, GPU use
defaults to true. -/
theorem gpu_option_precedence (dctx : WhisperContextParams)
    (ei : String → WhisperContextParams → Option Nat) (o : Options) :
    (∀ (b : Bool) (v : JVal) (r : InitResult),
      optGet o "gpu" = some (JVal.bool b) → optGet o "use_gpu" = some v →
      init_model dctx ei o = Except.ok r → r.cparams.use_gpu = b) ∧
    (∀ r : InitResult, optGet o "gpu" = none → optGet o "use_gpu" = none →
      init_model dctx ei o = Except.ok r → r.cparams.use_gpu = true) := by
  constructor
  · intro b v r hg hu hok
    have hgpu : initUseGpu o = Except.ok b := by
      unfold initUseGpu
      rw [hg]
    unfold init_model at hok
    split at hok
    · rw [hgpu] at hok
      dsimp only at hok
      split at hok
      · exact Except.noConfusion hok
      · rename_i fa hfa
        try dsimp only at hok
        split at hok
        · exact Except.noConfusion hok
        · injection hok with hr
          rw [← hr]
    · exact Except.noConfusion hok
  · intro r hg hu hok
    have hgpu : initUseGpu o = Except.ok true := by
      unfold initUseGpu
      rw [hg, hu]
    unfold init_model at hok
    split at hok
    · rw [hgpu] at hok
      dsimp only at hok
      split at hok
      · exact Except.noConfusion hok
      · rename_i fa hfa
        try dsimp only at hok
        split at hok
        · exact Except.noConfusion hok
        · injection hok with hr
          rw [← hr]
    · exact Except.noConfusion hok

/-- C9 witness: `gpu: false` beats `use_gpu: true`. -/
theorem gpu_option_precedence_witness :
    ∃ r, init_model exCtxDefaults exEngineInit exOptsGpu = Except.ok r ∧
      r.cparams.use_gpu = false := by
  refine ⟨_, rfl, ?_⟩
  exact (gpu_option_precedence exCtxDefaults exEngineInit exOptsGpu).1 false
    (JVal.bool true) _ rfl rfl rfl

/-- C10: creation establishes, and both release paths preserve, the
invariant that a freed handle holds no context reference. -/
theorem handle_inv_preserved :
    (∀ (dctx : WhisperContextParams) (ei : String → WhisperContextParams → Option Nat)
      (o : Options) (r : InitResult),
      init_model dctx ei o = Except.ok r → HandleInv r.handle) ∧
    (∀ h, HandleInv h → HandleInv (free_model h).1) ∧
    (∀ h, HandleInv h → HandleInv (finalizeHandle h).1) := by
  refine ⟨?_, ?_, ?_⟩
  · intro dctx ei o r hok
    unfold init_model at hok
    split at hok
    · split at hok
      · exact Except.noConfusion hok
      · split at hok
        · exact Except.noConfusion hok
        · dsimp only at hok
          split at hok
          · exact Except.noConfusion hok
          · injection hok with hr
            rw [← hr]
            intro hfr
            exact absurd hfr (by simp)
    · exact Except.noConfusion hok
  · intro h hInv
    obtain ⟨ctx, freed⟩ := h
    cases ctx <;> cases freed <;> simp_all [free_model, HandleInv]
  · intro h hInv
    obtain ⟨ctx, freed⟩ := h
    cases ctx <;> cases freed <;> simp_all [finalizeHandle, HandleInv]

/-- C10 witness: the invariant after creating and after releasing. -/
theorem handle_inv_preserved_witness :
    HandleInv (free_model exLiveHandle).1 ∧ HandleInv (finalizeHandle exFreedHandle).1 := by
  refine ⟨handle_inv_preserved.2.1 exLiveHandle ?_, handle_inv_preserved.2.2 exFreedHandle ?_⟩
  · intro hfr
    exact absurd hfr (by decide)
  · intro _
    rfl

end WhisperAddon
